import Mathlib

/-!
Verification of the triangular-arbitrage scanner/monitor.

The scanner (`runScanner`) discovers Uniswap-V3 pools for a fixed token
universe, canonicalizes each pool's token0/token1 by on-chain address,
enumerates all closed three-hop routes and persists them; the monitor
(`runMonitor`) fetches pool state, filters by liquidity, and chains
fee-adjusted exchange rates along each route.

Numeric model: decimal.js values are modelled exactly as rationals.  The
special values that decimal.js can produce in this program are modelled by
`DecValue`: `+Infinity` (from dividing a positive finite value by zero) is
`DecValue.inf`; `NaN` and `-Infinity` are collapsed into `DecValue.nan`,
which is observationally sound here because the monitor only observes
amounts through `greaterThan` against a finite threshold, where both
`NaN` and `-Infinity` compare false.
-/

/-- The token universe from `config/tokens.ts`. -/
inductive TokenSymbol where
  | USDC
  | USDT
  | DAI
  | WETH
  | WBTC
  | ARB
  | UNI
deriving DecidableEq, Repr, Fintype

open TokenSymbol

/-- On-chain address of each token (`TOKENS[..].address`), as an unsigned integer. -/
def address : TokenSymbol → ℕ
  | USDC => 0xaf88d065e77c8cC2239327C5EDb3A432268e5831
  | USDT => 0xFd086bC7CD5C481DCC9C85ebE478A1C0b69FCbb9
  | DAI  => 0xDA10009cBd5D07dd0CECc66161FC93D7c9000da1
  | WETH => 0x82aF49447D8a07e3bd95BD0d56f35241523fBab1
  | WBTC => 0x2f2a2543B76A4166549F7aaB2e75Bef0aefC5B0f
  | ARB  => 0x912CE59144191C1204E64559FE8253a0e49E6548
  | UNI  => 0xFa7F8980b0f1E64A2062791cc3b0871572f1F7f0

/-- Decimal precision of each token (`TOKENS[..].decimals`). -/
def decimals : TokenSymbol → ℕ
  | USDC => 6
  | USDT => 6
  | DAI  => 18
  | WETH => 18
  | WBTC => 8
  | ARB  => 18
  | UNI  => 18

/-- The symbol string of a token, as used in pair keys. -/
def symbolName : TokenSymbol → String
  | USDC => "USDC"
  | USDT => "USDT"
  | DAI  => "DAI"
  | WETH => "WETH"
  | WBTC => "WBTC"
  | ARB  => "ARB"
  | UNI  => "UNI"

/-- `getPoolKey` from the scanner: canonical order-independent key for an
unordered token pair (string comparison on symbol names, as in the source). -/
def getPoolKey (tA tB : TokenSymbol) : String :=
  if symbolName tA < symbolName tB
  then symbolName tA ++ "/" ++ symbolName tB
  else symbolName tB ++ "/" ++ symbolName tA

/-- `token0Symbol` from the scanner: the pool's canonical token0, chosen by
comparing the two tokens' addresses as unsigned integers
(`BigInt(TOKENS[t0].address) < BigInt(TOKENS[t1].address)`). -/
def token0Symbol (tA tB : TokenSymbol) : TokenSymbol :=
  if address tA < address tB then tA else tB

/-- `token1Symbol` from the scanner: the pool's canonical token1. -/
def token1Symbol (tA tB : TokenSymbol) : TokenSymbol :=
  if address tA < address tB then tB else tA

/-- `PoolConfig` from the scanner. -/
structure PoolConfig where
  addr : ℕ
  token0 : TokenSymbol
  token1 : TokenSymbol
  fee : ℕ
deriving DecidableEq, Repr

/-- `RouteLeg` from the scanner: one hop with the pool's canonical
token0/token1 denormalized onto the leg. -/
structure RouteLeg where
  pool : ℕ
  tokenIn : TokenSymbol
  tokenOut : TokenSymbol
  fee : ℕ
  token0 : TokenSymbol
  token1 : TokenSymbol
deriving DecidableEq, Repr

/-- `TriadRoute` from the scanner: exactly three legs. -/
structure TriadRoute where
  leg1 : RouteLeg
  leg2 : RouteLeg
  leg3 : RouteLeg
deriving DecidableEq, Repr

/-- The three legs of a route, in order (the `triad.route` tuple). -/
def routeList (t : TriadRoute) : List RouteLeg :=
  [t.leg1, t.leg2, t.leg3]

/-- Construction of one route leg from a pool, as in the scanner's triad loop. -/
def mkLeg (p : PoolConfig) (tIn tOut : TokenSymbol) : RouteLeg :=
  ⟨p.addr, tIn, tOut, p.fee, p.token0, p.token1⟩

/-- The scanner's per-triple route generation (lines 106-147 of the scanner):
look up the three pair-key pool lists and, if all are non-empty, emit the
full cross-product of one pool per edge. -/
def routesForTriple (poolsOf : String → List PoolConfig)
    (tA tB tC : TokenSymbol) : List TriadRoute :=
  if 0 < (poolsOf (getPoolKey tA tB)).length ∧
     0 < (poolsOf (getPoolKey tB tC)).length ∧
     0 < (poolsOf (getPoolKey tC tA)).length then
    (poolsOf (getPoolKey tA tB)).flatMap fun pAB =>
      (poolsOf (getPoolKey tB tC)).flatMap fun pBC =>
        (poolsOf (getPoolKey tC tA)).map fun pCA =>
          ⟨mkLeg pAB tA tB, mkLeg pBC tB tC, mkLeg pCA tC tA⟩
  else []

/-- The scanner's persistence step (lines 152-161): only when at least one
route was generated does it run the pipeline `del` + `sadd`; the resulting
store contents are the deduplicated generated routes, otherwise the prior
store contents are left untouched. -/
def persistTriads (prior : List TriadRoute) (triads : List TriadRoute) :
    List TriadRoute :=
  if 0 < triads.length then triads.dedup else prior

/-- Value of the decimal.js `Decimal` type as it occurs in the monitor:
a finite rational, positive infinity (`new Decimal(1).div(0)`), or `nan`.
`NaN` and `-Infinity` are both mapped to `nan`: the monitor only observes
amounts via `greaterThan` against a finite threshold, where both compare
false, and neither ever flows into a position where they are told apart. -/
inductive DecValue where
  | fin (q : ℚ)
  | inf
  | nan
deriving DecidableEq, Repr

/-- decimal.js multiplication restricted to the values above. -/
def DecValue.mul : DecValue → DecValue → DecValue
  | fin a, fin b => fin (a * b)
  | fin a, inf => if 0 < a then inf else nan
  | inf, fin b => if 0 < b then inf else nan
  | inf, inf => inf
  | _, _ => nan

/-- decimal.js division restricted to the values above; a positive finite
value divided by zero is positive infinity. -/
def DecValue.div : DecValue → DecValue → DecValue
  | fin a, fin b => if b = 0 then (if 0 < a then inf else nan) else fin (a / b)
  | fin _, inf => fin 0
  | inf, fin b => if 0 ≤ b then inf else nan
  | _, _ => nan

/-- decimal.js subtraction restricted to the values above. -/
def DecValue.sub : DecValue → DecValue → DecValue
  | fin a, fin b => fin (a - b)
  | inf, fin _ => inf
  | _, _ => nan

/-- decimal.js `greaterThan` against a finite threshold. -/
def DecValue.gtF : DecValue → ℚ → Bool
  | fin a, b => decide (b < a)
  | inf, _ => true
  | nan, _ => false

/-- The result of the multicall for one pool: the `slot0` and `liquidity`
sub-results (success flag and value each). -/
structure PoolFetch where
  pool : ℕ
  slot0Ok : Bool
  sqrtPriceX96 : ℕ
  liquidityOk : Bool
  liquidity : ℕ
deriving DecidableEq, Repr

/-- `MIN_LIQUIDITY` from the monitor (10e18, in native liquidity units). -/
def MIN_LIQUIDITY : ℕ := 10000000000000000000

/-- The `precision` configured on the monitor's `Decimal.set` call. -/
def decimalPrecision : ℕ := 60

/-- `getRawPriceFromSqrt` from the monitor: the raw token1-per-token0 ratio
`(sqrtPriceX96 / 2^96)^2`, modelled as an exact rational. -/
def getRawPriceFromSqrt (sqrtPriceX96 : ℕ) : ℚ :=
  let Q96 : ℚ := 2 ^ 96
  ((sqrtPriceX96 : ℚ) / Q96) ^ 2

/-- One entry of the monitor's `priceMap`. -/
structure PriceData where
  rawPriceT1PerT0 : ℚ
  liquidity : ℕ
deriving DecidableEq, Repr

/-- The monitor's per-pool filter (lines 55-67): keep the pool only when
both sub-results succeeded and the liquidity is not below `MIN_LIQUIDITY`;
no other condition is checked. -/
def keepFetch (f : PoolFetch) : Option (ℕ × PriceData) :=
  if f.slot0Ok && f.liquidityOk then
    if f.liquidity < MIN_LIQUIDITY then none
    else some (f.pool, ⟨getRawPriceFromSqrt f.sqrtPriceX96, f.liquidity⟩)
  else none

/-- The monitor's `priceMap` built from the multicall results. -/
def buildPriceMap (fetches : List PoolFetch) : List (ℕ × PriceData) :=
  fetches.filterMap keepFetch

/-- `priceMap.get(pool)`. -/
def priceMapFind (pm : List (ℕ × PriceData)) (pool : ℕ) : Option PriceData :=
  (pm.find? fun e => e.1 == pool).map Prod.snd

/-- `START_TOKEN_SYMBOL` from the monitor. -/
def START_TOKEN_SYMBOL : TokenSymbol := WETH

/-- `TEST_AMOUNT` from the monitor (1 WETH). -/
def TEST_AMOUNT : DecValue := DecValue.fin 1

/-- `MIN_PROFIT_THRESHOLD` from the monitor (0.001). -/
def MIN_PROFIT_THRESHOLD : ℚ := 1 / 1000

/-- The monitor's direction selection (lines 102-110): if the leg's input
token is the pool's token0 use the raw token1-per-token0 ratio, if it is the
pool's token1 use `1` divided by that ratio, otherwise fail the route. -/
def rawPriceMultiplier (leg : RouteLeg) (priceData : PriceData) :
    Option DecValue :=
  if leg.tokenIn = leg.token0 then
    some (DecValue.fin priceData.rawPriceT1PerT0)
  else if leg.tokenIn = leg.token1 then
    some ((DecValue.fin 1).div (DecValue.fin priceData.rawPriceT1PerT0))
  else none

/-- One iteration of the monitor's leg loop (lines 87-121), acting on the
running (amount, current token) state; `none` is the `isProfitable = false`
break. -/
def legStep (pm : List (ℕ × PriceData)) (leg : RouteLeg)
    (st : DecValue × TokenSymbol) : Option (DecValue × TokenSymbol) :=
  match priceMapFind pm leg.pool with
  | none => none
  | some priceData =>
    if leg.tokenIn = st.2 then
      match rawPriceMultiplier leg priceData with
      | none => none
      | some m =>
        let feeRate : ℚ := (leg.fee : ℚ) / 1000000
        let decShift : ℚ :=
          (10 : ℚ) ^ ((decimals leg.tokenIn : ℤ) - (decimals leg.tokenOut : ℤ))
        let humanExchangeRate := m.mul (DecValue.fin decShift)
        some ((st.1.mul humanExchangeRate).mul (DecValue.fin (1 - feeRate)),
              leg.tokenOut)
    else none

/-- The monitor's leg loop folded over a list of legs. -/
def chainLegs (pm : List (ℕ × PriceData)) :
    List RouteLeg → DecValue × TokenSymbol → Option (DecValue × TokenSymbol)
  | [], st => some st
  | leg :: rest, st => (legStep pm leg st).bind (chainLegs pm rest)

/-- Evaluation of one triad (monitor lines 78-137): `some profit` exactly
when the route is appended to `profitableTriads`. -/
def evalTriad (pm : List (ℕ × PriceData)) (t : TriadRoute) : Option DecValue :=
  if t.leg1.tokenIn = START_TOKEN_SYMBOL then
    if (routeList t).all (fun leg => (priceMapFind pm leg.pool).isSome) then
      match chainLegs pm (routeList t) (TEST_AMOUNT, START_TOKEN_SYMBOL) with
      | none => none
      | some (amt, cur) =>
        if cur = START_TOKEN_SYMBOL then
          let profit := amt.sub TEST_AMOUNT
          if profit.gtF MIN_PROFIT_THRESHOLD then some profit else none
        else none
    else none
  else none

/-- The monitor's `profitableTriads` accumulation over the route list. -/
def profitableTriads (pm : List (ℕ × PriceData)) (triads : List TriadRoute) :
    List DecValue :=
  triads.filterMap (evalTriad pm)

/-- The per-leg human-scale exchange rate for a raw rate `r` (spec wording
for step 3c of the route evaluator): raw rate times
`10^(decimals(input) - decimals(output))`. -/
def humanRate (leg : RouteLeg) (r : ℚ) : ℚ :=
  r * (10 : ℚ) ^ ((decimals leg.tokenIn : ℤ) - (decimals leg.tokenOut : ℤ))

/-- Modelled from the spec: the configured stable-token class ("expected to
trade near parity").  No such configuration exists anywhere in the code; it
is modelled here only to state the stablecoin-gate claim. -/
def isStable : TokenSymbol → Bool
  | USDC => true
  | USDT => true
  | DAI => true
  | _ => false

/-- Modelled from the spec: the human-scale token1-per-token0 price used by
the stablecoin sanity gate, raw ratio times `10^(dec0 - dec1)`.  The current
monitor computes no such value (only the earlier revision did). -/
def humanScalePrice (raw : ℚ) (dec0 dec1 : ℕ) : ℚ :=
  raw * (10 : ℚ) ^ ((dec0 : ℤ) - (dec1 : ℤ))

/-- Concrete fetch result: a USDC/USDT pool whose square-root price encodes
a human price of (33/32)^2, well outside the [0.99, 1.01] parity band, with
liquidity exactly at the minimum. -/
def stableFetch : PoolFetch := ⟨0x1111, true, 2 ^ 96 + 2 ^ 91, true, MIN_LIQUIDITY⟩

/-- A route leg through the pool of `stableFetch`; USDC/USDT is its
canonical token ordering (USDC has the smaller address). -/
def stableLeg : RouteLeg := ⟨0x1111, USDC, USDT, 500, USDC, USDT⟩

/-- Concrete fetch result with liquidity one unit below the minimum. -/
def lowLiqFetch : PoolFetch := ⟨0x2222, true, 2 ^ 96, true, MIN_LIQUIDITY - 1⟩

/-- Concrete fetch result passing both monitor gates. -/
def goodFetch : PoolFetch := ⟨0x3333, true, 2 ^ 96, true, MIN_LIQUIDITY⟩

/-- Concrete price map over three pools (raw token1-per-token0 ratios
2, 1, 1). -/
def wpm : List (ℕ × PriceData) :=
  [(0x0101, ⟨2, MIN_LIQUIDITY⟩), (0x0202, ⟨1, MIN_LIQUIDITY⟩),
   (0x0303, ⟨1, MIN_LIQUIDITY⟩)]

/-- First leg of the concrete route: WETH → DAI (WETH is token0). -/
def wLeg1 : RouteLeg := ⟨0x0101, WETH, DAI, 500, WETH, DAI⟩

/-- Second leg of the concrete route: DAI → ARB (DAI is token1). -/
def wLeg2 : RouteLeg := ⟨0x0202, DAI, ARB, 500, ARB, DAI⟩

/-- Third leg of the concrete route: ARB → WETH (ARB is token1). -/
def wLeg3 : RouteLeg := ⟨0x0303, ARB, WETH, 500, WETH, ARB⟩

/-- Concrete WETH → DAI → ARB → WETH route over the pools of `wpm`, with
each leg carrying its pool's canonical token0/token1. -/
def wTriad : TriadRoute := ⟨wLeg1, wLeg2, wLeg3⟩

/-- Concrete fetch result with `sqrtPriceX96 = 0` and ample liquidity. -/
def zeroFetch : PoolFetch := ⟨0x4444, true, 0, true, MIN_LIQUIDITY⟩

/-- A route leg entering the pool of `zeroFetch` through its token1. -/
def zeroLeg : RouteLeg := ⟨0x4444, USDC, WETH, 500, WETH, USDC⟩

/-- A route leg whose input token matches neither of its pool's tokens. -/
def badLeg : RouteLeg := ⟨0x0505, USDT, WBTC, 500, WETH, DAI⟩

/-- A concrete route leg used to build store contents. -/
def sampleLeg : RouteLeg := ⟨0x0101, WETH, DAI, 500, WETH, DAI⟩

/-- A concrete triad used to exercise the persistence step. -/
def sTriad : TriadRoute := ⟨sampleLeg, sampleLeg, sampleLeg⟩

/- ---------------------------------------------------------------------- -/
/- Helper lemmas -/

theorem keepFetch_eq (f : PoolFetch) :
    keepFetch f =
      if f.slot0Ok = true ∧ f.liquidityOk = true ∧ MIN_LIQUIDITY ≤ f.liquidity
      then some (f.pool, ⟨getRawPriceFromSqrt f.sqrtPriceX96, f.liquidity⟩)
      else none := by
  unfold keepFetch
  cases hs : f.slot0Ok <;> cases hl : f.liquidityOk <;> simp [hs, hl]
  by_cases hq : f.liquidity < MIN_LIQUIDITY
  · simp [hq, Nat.not_le.mpr hq]
  · simp [hq, Nat.not_lt.mp hq]

theorem pool_mem_buildPriceMap {fetches : List PoolFetch} {e : ℕ × PriceData}
    (h : e ∈ buildPriceMap fetches) : e.1 ∈ fetches.map PoolFetch.pool := by
  unfold buildPriceMap at h
  rcases List.mem_filterMap.mp h with ⟨f, hf, hk⟩
  rw [keepFetch_eq] at hk
  split at hk
  · cases hk
    exact List.mem_map_of_mem _ hf
  · cases hk

theorem priceMapFind_eq_none_of_not_mem (pm : List (ℕ × PriceData)) (q : ℕ)
    (h : ∀ e ∈ pm, e.1 ≠ q) : priceMapFind pm q = none := by
  have hfind : pm.find? (fun e => e.1 == q) = none := by
    apply List.find?_eq_none.mpr
    intro x hx
    simpa using h x hx
  simp [priceMapFind, hfind]

theorem priceMapFind_buildPriceMap (fetches : List PoolFetch) :
    ∀ f : PoolFetch, (fetches.map PoolFetch.pool).Nodup → f ∈ fetches →
      priceMapFind (buildPriceMap fetches) f.pool =
        (if f.slot0Ok = true ∧ f.liquidityOk = true ∧
            MIN_LIQUIDITY ≤ f.liquidity
         then some ⟨getRawPriceFromSqrt f.sqrtPriceX96, f.liquidity⟩
         else none) := by
  induction fetches with
  | nil =>
    intro f _ hmem
    cases hmem
  | cons g rest ih =>
    intro f hnd hmem
    rw [List.map_cons, List.nodup_cons] at hnd
    obtain ⟨hg, hndr⟩ := hnd
    rcases List.mem_cons.mp hmem with hfg | hfr
    · subst hfg
      by_cases hc : f.slot0Ok = true ∧ f.liquidityOk = true ∧
          MIN_LIQUIDITY ≤ f.liquidity
      · have hb : buildPriceMap (f :: rest) =
            (f.pool, ⟨getRawPriceFromSqrt f.sqrtPriceX96, f.liquidity⟩) ::
              buildPriceMap rest := by
          simp [buildPriceMap, List.filterMap_cons, keepFetch_eq, hc]
        rw [hb, if_pos hc]
        unfold priceMapFind
        rw [List.find?_cons_of_pos _ (by simp)]
        rfl
      · have hb : buildPriceMap (f :: rest) = buildPriceMap rest := by
          simp [buildPriceMap, List.filterMap_cons, keepFetch_eq, hc]
        rw [hb, if_neg hc]
        apply priceMapFind_eq_none_of_not_mem
        intro e he heq
        exact hg (heq ▸ pool_mem_buildPriceMap he)
    · have hne : g.pool ≠ f.pool := by
        intro he
        exact hg (he ▸ List.mem_map_of_mem _ hfr)
      have hstep : priceMapFind (buildPriceMap (g :: rest)) f.pool =
          priceMapFind (buildPriceMap rest) f.pool := by
        unfold buildPriceMap
        rw [List.filterMap_cons]
        cases hk : keepFetch g with
        | none => rfl
        | some e =>
          have he1 : e.1 = g.pool := by
            rw [keepFetch_eq] at hk
            split at hk
            · cases hk
              rfl
            · cases hk
          unfold priceMapFind
          rw [List.find?_cons_of_neg _ (by simp [he1, hne])]
      rw [hstep]
      exact ih f hndr hfr

theorem evalTriad_none_of_missing (pm : List (ℕ × PriceData)) (t : TriadRoute)
    (h : ∃ leg ∈ routeList t, priceMapFind pm leg.pool = none) :
    evalTriad pm t = none := by
  unfold evalTriad
  by_cases h1 : t.leg1.tokenIn = START_TOKEN_SYMBOL
  · rw [if_pos h1]
    have hall : ((routeList t).all
        fun leg => (priceMapFind pm leg.pool).isSome) = false := by
      apply List.all_eq_false.mpr
      rcases h with ⟨leg, hmem, hnone⟩
      exact ⟨leg, hmem, by simp [hnone]⟩
    rw [hall]
    simp
  · rw [if_neg h1]

/- ---------------------------------------------------------------------- -/
/- Theorems for the filtering claims -/

/-- C3 counterexample: the USDC/USDT pool of `stableFetch` has both tokens
in the stable class and a human-scale price (33/32)^2 above 1.01, yet it
receives a Price Data entry, because the monitor applies no stablecoin
sanity gate at all. -/
theorem stable_gate_counterexample :
    isStable stableLeg.token0 = true ∧ isStable stableLeg.token1 = true ∧
    stableLeg.token0 = token0Symbol USDC USDT ∧
    stableLeg.token1 = token1Symbol USDC USDT ∧
    101 / 100 <
      humanScalePrice (getRawPriceFromSqrt stableFetch.sqrtPriceX96)
        (decimals stableLeg.token0) (decimals stableLeg.token1) ∧
    priceMapFind (buildPriceMap [stableFetch]) stableLeg.pool =
      some ⟨getRawPriceFromSqrt stableFetch.sqrtPriceX96, MIN_LIQUIDITY⟩ := by
  refine ⟨rfl, rfl, by decide, by decide, ?_, ?_⟩
  · norm_num [humanScalePrice, getRawPriceFromSqrt, stableFetch, stableLeg,
      decimals]
  · have h := priceMapFind_buildPriceMap [stableFetch] stableFetch
      (by decide) (by simp)
    rw [show stableLeg.pool = stableFetch.pool from rfl, h,
      if_pos ⟨rfl, rfl, le_refl _⟩]
    rfl

/-- C3 (amended): the monitor keeps a pool in Price Data exactly when both
bulk-fetch sub-results succeeded and the liquidity is at least the
configured minimum; no stable-pair price-band condition exists, so a
stable/stable pool priced outside [0.99, 1.01] is retained whenever those
two conditions hold. -/
theorem price_data_inclusion_iff (fetches : List PoolFetch) (f : PoolFetch)
    (hnd : (fetches.map PoolFetch.pool).Nodup) (hmem : f ∈ fetches) :
    priceMapFind (buildPriceMap fetches) f.pool ≠ none ↔
      f.slot0Ok = true ∧ f.liquidityOk = true ∧
        MIN_LIQUIDITY ≤ f.liquidity := by
  rw [priceMapFind_buildPriceMap fetches f hnd hmem]
  by_cases hc : f.slot0Ok = true ∧ f.liquidityOk = true ∧
      MIN_LIQUIDITY ≤ f.liquidity
  · simp [hc]
  · simp [hc]

/-- Witness for the amended C3 at `goodFetch`. -/
theorem price_data_inclusion_iff_witness :
    priceMapFind (buildPriceMap [goodFetch]) goodFetch.pool ≠ none :=
  (price_data_inclusion_iff [goodFetch] goodFetch (by decide)
    (by simp)).mpr ⟨rfl, rfl, le_refl _⟩

/-- C4: a pool whose fetched liquidity is strictly below `MIN_LIQUIDITY`
gets no Price Data entry; every route with a leg through it is rejected
(never reported profitable); and the evaluation run is not aborted: the
remaining routes produce exactly the same report list. -/
theorem liquidity_gate_excludes (fetches : List PoolFetch) (f : PoolFetch)
    (triads : List TriadRoute)
    (hnd : (fetches.map PoolFetch.pool).Nodup) (hmem : f ∈ fetches)
    (hlow : f.liquidity < MIN_LIQUIDITY) :
    priceMapFind (buildPriceMap fetches) f.pool = none ∧
    (∀ t ∈ triads, (∃ leg ∈ routeList t, leg.pool = f.pool) →
      evalTriad (buildPriceMap fetches) t = none) ∧
    profitableTriads (buildPriceMap fetches) triads =
      profitableTriads (buildPriceMap fetches)
        (triads.filter fun t =>
          (routeList t).all fun leg => leg.pool != f.pool) := by
  have hfind : priceMapFind (buildPriceMap fetches) f.pool = none := by
    rw [priceMapFind_buildPriceMap fetches f hnd hmem, if_neg]
    intro hc
    exact absurd hc.2.2 (Nat.not_le.mpr hlow)
  have hskip : ∀ t : TriadRoute, (∃ leg ∈ routeList t, leg.pool = f.pool) →
      evalTriad (buildPriceMap fetches) t = none := by
    intro t ht
    rcases ht with ⟨leg, hm, he⟩
    exact evalTriad_none_of_missing _ t ⟨leg, hm, he ▸ hfind⟩
  refine ⟨hfind, fun t _ ht => hskip t ht, ?_⟩
  induction triads with
  | nil => rfl
  | cons t rest ih =>
    by_cases ht : (routeList t).all (fun leg => leg.pool != f.pool) = true
    · simp only [profitableTriads, List.filter_cons, ht, if_pos,
        List.filterMap_cons]
      cases h : evalTriad (buildPriceMap fetches) t <;>
        simpa [h] using ih
    · have hbad : ∃ leg ∈ routeList t, leg.pool = f.pool := by
        rcases List.all_eq_false.mp (Bool.eq_false_iff.mpr ht) with
          ⟨leg, hm, hne⟩
        exact ⟨leg, hm, by simpa using hne⟩
      have hnone := hskip t hbad
      simp only [profitableTriads, List.filter_cons, ht, if_neg,
        List.filterMap_cons, hnone]
      simpa using ih

/-- Witness for C4: the pool fetched with liquidity one unit below the
minimum is absent from Price Data. -/
theorem liquidity_gate_excludes_witness :
    priceMapFind (buildPriceMap [lowLiqFetch]) lowLiqFetch.pool = none :=
  (liquidity_gate_excludes [lowLiqFetch] lowLiqFetch [] (by decide)
    (by simp) (by decide)).1

/-- C5 counterexample: a run that generates zero routes leaves the prior
store contents in place instead of clearing them, so the store does not
equal the (empty) generated route set. -/
theorem persist_zero_routes_counterexample :
    persistTriads [sTriad] [] = [sTriad] ∧
    persistTriads [sTriad] [] ≠ ([] : List TriadRoute) := by
  constructor
  · rfl
  · simp [persistTriads]

/-- C5 (amended): when a run generates at least one route the store is
cleared and replaced in one pipeline by exactly that run's route set
(deduplicated, set semantics); when it generates zero routes the store is
left untouched and prior contents survive. -/
theorem persist_replace_semantics (prior triads : List TriadRoute) :
    (0 < triads.length → persistTriads prior triads = triads.dedup) ∧
    (triads.length = 0 → persistTriads prior triads = prior) := by
  constructor
  · intro h
    simp [persistTriads, h]
  · intro h
    simp [persistTriads, h]

/-- Witness for the amended C5: a non-empty run replaces the store. -/
theorem persist_replace_semantics_witness :
    persistTriads [sTriad] [wTriad] = [wTriad].dedup :=
  (persist_replace_semantics [sTriad] [wTriad]).1 (by simp)

theorem length_bind_map_inner (ys zs : List PoolConfig)
    (g : PoolConfig → PoolConfig → TriadRoute) :
    (ys.flatMap fun y => zs.map fun z => g y z).length =
      ys.length * zs.length := by
  induction ys with
  | nil => simp
  | cons y ys ihy =>
    simp only [List.flatMap_cons, List.length_append, List.length_map,
      List.length_cons, ihy]
    ring

theorem length_bind_map (xs ys zs : List PoolConfig)
    (g : PoolConfig → PoolConfig → PoolConfig → TriadRoute) :
    (xs.flatMap fun x => ys.flatMap fun y => zs.map fun z => g x y z).length =
      xs.length * (ys.length * zs.length) := by
  induction xs with
  | nil => simp
  | cons x xs ih =>
    simp only [List.flatMap_cons, List.length_append, List.length_cons, ih,
      length_bind_map_inner]
    ring

/- ---------------------------------------------------------------------- -/
/- Theorems for the enumeration claims -/

/-- C1: for every discovered pool the token0/token1 assignment is a pure
function of the two tokens' on-chain addresses compared as unsigned
integers: querying the pair as (A,B) or (B,A) yields the same assignment,
and token0 is always the numerically smaller address. -/
theorem token_canonicalization_invariant (tA tB : TokenSymbol) (h : tA ≠ tB) :
    token0Symbol tA tB = token0Symbol tB tA ∧
    token1Symbol tA tB = token1Symbol tB tA ∧
    address (token0Symbol tA tB) < address (token1Symbol tA tB) := by
  revert h
  revert tA tB
  decide

/-- Witness for C1 at the concrete pair (USDC, WETH). -/
theorem token_canonicalization_invariant_witness :
    token0Symbol USDC WETH = token0Symbol WETH USDC ∧
    token1Symbol USDC WETH = token1Symbol WETH USDC ∧
    address (token0Symbol USDC WETH) < address (token1Symbol USDC WETH) :=
  token_canonicalization_invariant USDC WETH (by decide)

/-- C2: for every ordered triple of pairwise-distinct tokens the enumerator
generates exactly |pools(A,B)| * |pools(B,C)| * |pools(C,A)| routes for that
triple (the full cross-product); a triple with an empty edge contributes
zero routes (the product is then zero). -/
theorem triple_route_count_eq_product (poolsOf : String → List PoolConfig)
    (tA tB tC : TokenSymbol) (hAB : tA ≠ tB) (hBC : tB ≠ tC) (hCA : tC ≠ tA) :
    (routesForTriple poolsOf tA tB tC).length =
      (poolsOf (getPoolKey tA tB)).length *
      (poolsOf (getPoolKey tB tC)).length *
      (poolsOf (getPoolKey tC tA)).length := by
  unfold routesForTriple
  by_cases h : 0 < (poolsOf (getPoolKey tA tB)).length ∧
      0 < (poolsOf (getPoolKey tB tC)).length ∧
      0 < (poolsOf (getPoolKey tC tA)).length
  · rw [if_pos h, length_bind_map]
    ring
  · rw [if_neg h]
    have h0 : (poolsOf (getPoolKey tA tB)).length = 0 ∨
        (poolsOf (getPoolKey tB tC)).length = 0 ∨
        (poolsOf (getPoolKey tC tA)).length = 0 := by omega
    rcases h0 with h0 | h0 | h0 <;> simp [h0]

/-- A concrete pool map for exercising the enumeration theorems. -/
def wPoolsOf : String → List PoolConfig :=
  fun _ => [⟨0x0101, token0Symbol USDC WETH, token1Symbol USDC WETH, 500⟩]

/-- Witness for C2 at a concrete map with one pool per edge. -/
theorem triple_route_count_eq_product_witness :
    (routesForTriple wPoolsOf WETH USDC USDT).length = 1 :=
  (triple_route_count_eq_product wPoolsOf WETH USDC USDT
    (by decide) (by decide) (by decide)).trans (by decide)

/- ---------------------------------------------------------------------- -/
/- Helper lemmas for the evaluator -/

theorem legStep_eq_some {pm : List (ℕ × PriceData)} {leg : RouteLeg}
    {st s : DecValue × TokenSymbol} (h : legStep pm leg st = some s) :
    leg.tokenIn = st.2 ∧ s.2 = leg.tokenOut := by
  unfold legStep at h
  cases hpd : priceMapFind pm leg.pool with
  | none => rw [hpd] at h; cases h
  | some pd =>
    rw [hpd] at h
    dsimp only at h
    by_cases hin : leg.tokenIn = st.2
    · rw [if_pos hin] at h
      cases hm : rawPriceMultiplier leg pd with
      | none => rw [hm] at h; cases h
      | some m =>
        rw [hm] at h
        dsimp only at h
        cases h
        exact ⟨hin, rfl⟩
    · rw [if_neg hin] at h
      cases h

theorem chainLegs3_eq_some {pm : List (ℕ × PriceData)} {t : TriadRoute}
    {st s : DecValue × TokenSymbol}
    (h : chainLegs pm (routeList t) st = some s) :
    t.leg1.tokenIn = st.2 ∧ t.leg2.tokenIn = t.leg1.tokenOut ∧
    t.leg3.tokenIn = t.leg2.tokenOut ∧ s.2 = t.leg3.tokenOut := by
  simp only [routeList, chainLegs] at h
  rcases Option.bind_eq_some.mp h with ⟨s1, hs1, h⟩
  rcases Option.bind_eq_some.mp h with ⟨s2, hs2, h⟩
  rcases Option.bind_eq_some.mp h with ⟨s3, hs3, h⟩
  obtain ⟨h1a, h1b⟩ := legStep_eq_some hs1
  obtain ⟨h2a, h2b⟩ := legStep_eq_some hs2
  obtain ⟨h3a, h3b⟩ := legStep_eq_some hs3
  have hs : s3 = s := by
    simpa [chainLegs] using h
  refine ⟨h1a, h1b ▸ h2a, h2b ▸ h3a, ?_⟩
  rw [← hs]
  exact h3b

theorem legStep_fin (pm : List (ℕ × PriceData)) (leg : RouteLeg)
    (pd : PriceData) (r a : ℚ) (cur : TokenSymbol)
    (hp : priceMapFind pm leg.pool = some pd)
    (hm : rawPriceMultiplier leg pd = some (DecValue.fin r))
    (hin : leg.tokenIn = cur) :
    legStep pm leg (DecValue.fin a, cur) =
      some (DecValue.fin
        (a * humanRate leg r * (1 - (leg.fee : ℚ) / 1000000)),
        leg.tokenOut) := by
  unfold legStep
  rw [hp]
  dsimp only
  rw [if_pos hin, hm]
  dsimp only
  simp only [DecValue.mul, humanRate]

/- ---------------------------------------------------------------------- -/
/- Theorems for the evaluator claims -/

/-- C6: a persisted route is reported profitable exactly when the first
leg's input token is the base token, every leg's pool has surviving Price
Data, each leg's declared input token equals the running current token,
the running token returns to the base token after the three legs, and the
final running amount minus the test amount strictly exceeds the minimum
profit threshold; all other routes are silently filtered (the evaluation
function is total and simply yields no report). -/
theorem profitable_iff_conditions (pm : List (ℕ × PriceData))
    (t : TriadRoute) :
    evalTriad pm t ≠ none ↔
      (t.leg1.tokenIn = START_TOKEN_SYMBOL ∧
       (∀ leg ∈ routeList t, (priceMapFind pm leg.pool).isSome = true) ∧
       t.leg2.tokenIn = t.leg1.tokenOut ∧
       t.leg3.tokenIn = t.leg2.tokenOut ∧
       ∃ a, chainLegs pm (routeList t) (TEST_AMOUNT, START_TOKEN_SYMBOL) =
              some (a, START_TOKEN_SYMBOL) ∧
            (a.sub TEST_AMOUNT).gtF MIN_PROFIT_THRESHOLD = true) := by
  unfold evalTriad
  constructor
  · intro h
    by_cases h1 : t.leg1.tokenIn = START_TOKEN_SYMBOL
    case neg => rw [if_neg h1] at h; exact absurd rfl h
    rw [if_pos h1] at h
    by_cases h2 : ((routeList t).all
        fun leg => (priceMapFind pm leg.pool).isSome) = true
    case neg => rw [if_neg h2] at h; exact absurd rfl h
    rw [if_pos h2] at h
    cases hch : chainLegs pm (routeList t) (TEST_AMOUNT, START_TOKEN_SYMBOL) with
    | none => rw [hch] at h; exact absurd rfl h
    | some s =>
      rw [hch] at h
      obtain ⟨amt, cur⟩ := s
      dsimp only at h
      by_cases h3 : cur = START_TOKEN_SYMBOL
      case neg => rw [if_neg h3] at h; exact absurd rfl h
      rw [if_pos h3] at h
      by_cases h4 : ((amt.sub TEST_AMOUNT).gtF MIN_PROFIT_THRESHOLD) = true
      case neg => rw [if_neg h4] at h; exact absurd rfl h
      subst h3
      have hc := chainLegs3_eq_some hch
      exact ⟨h1, List.all_eq_true.mp h2, hc.2.1, hc.2.2.1, amt, rfl, h4⟩
  · rintro ⟨h1, hall, hc2, hc3, a, hch, hgt⟩
    rw [if_pos h1, if_pos (List.all_eq_true.mpr hall), hch]
    dsimp only
    rw [if_pos rfl, if_pos hgt]
    simp

/-- Witness for C6: the concrete route `wTriad` over `wpm` is accepted. -/
theorem profitable_iff_conditions_witness : evalTriad wpm wTriad ≠ none := by
  apply (profitable_iff_conditions wpm wTriad).mpr
  refine ⟨rfl, ?_, rfl, rfl,
    DecValue.fin (7988005999 / 4000000000), ?_, ?_⟩
  · intro leg hm
    fin_cases hm <;> rfl
  · simp only [routeList, wTriad, chainLegs, TEST_AMOUNT, START_TOKEN_SYMBOL]
    rw [legStep_fin wpm wLeg1 ⟨2, MIN_LIQUIDITY⟩ 2 1 WETH rfl rfl rfl]
    simp only [Option.some_bind, chainLegs]
    rw [legStep_fin wpm wLeg2 ⟨1, MIN_LIQUIDITY⟩ 1
      (1 * humanRate wLeg1 2 * (1 - (wLeg1.fee : ℚ) / 1000000))
      wLeg1.tokenOut rfl
      (by norm_num [rawPriceMultiplier, DecValue.div, wLeg2]) rfl]
    simp only [Option.some_bind, chainLegs]
    rw [legStep_fin wpm wLeg3 ⟨1, MIN_LIQUIDITY⟩ 1
      (1 * humanRate wLeg1 2 * (1 - (wLeg1.fee : ℚ) / 1000000) *
        humanRate wLeg2 1 * (1 - (wLeg2.fee : ℚ) / 1000000))
      wLeg2.tokenOut rfl
      (by norm_num [rawPriceMultiplier, DecValue.div, wLeg3]) rfl]
    simp only [Option.some_bind, chainLegs, Option.some.injEq, Prod.mk.injEq,
      DecValue.fin.injEq]
    refine ⟨?_, rfl⟩
    norm_num [humanRate, decimals, wLeg1, wLeg2, wLeg3]
  · simp only [DecValue.sub, DecValue.gtF, TEST_AMOUNT, MIN_PROFIT_THRESHOLD,
      decide_eq_true_eq]
    norm_num

/-- C7: the monitor's per-leg rate selection uses the raw token1-per-token0
ratio when the input token is the pool's token0, exactly the multiplicative
inverse when the input token is the pool's token1, and aborts evaluation of
the route when the input token matches neither pool token. -/
theorem raw_rate_direction_selection (leg : RouteLeg) (pd : PriceData) :
    (leg.tokenIn = leg.token0 →
      rawPriceMultiplier leg pd = some (DecValue.fin pd.rawPriceT1PerT0)) ∧
    (leg.tokenIn = leg.token1 → leg.token0 ≠ leg.token1 →
      pd.rawPriceT1PerT0 ≠ 0 →
      rawPriceMultiplier leg pd =
        some (DecValue.fin (1 / pd.rawPriceT1PerT0))) ∧
    (leg.tokenIn ≠ leg.token0 → leg.tokenIn ≠ leg.token1 →
      rawPriceMultiplier leg pd = none ∧
      ∀ (pm : List (ℕ × PriceData)) (st : DecValue × TokenSymbol)
        (rest : List RouteLeg), priceMapFind pm leg.pool = some pd →
        chainLegs pm (leg :: rest) st = none) := by
  refine ⟨?_, ?_, ?_⟩
  · intro h
    simp [rawPriceMultiplier, h]
  · intro h hne hr
    simp [rawPriceMultiplier, h, Ne.symm hne, DecValue.div, hr]
  · intro h0 h1
    have hm : rawPriceMultiplier leg pd = none := by
      simp [rawPriceMultiplier, h0, h1]
    refine ⟨hm, ?_⟩
    intro pm st rest hpd
    have hstep : legStep pm leg st = none := by
      unfold legStep
      rw [hpd]
      dsimp only
      by_cases hin : leg.tokenIn = st.2
      · rw [if_pos hin, hm]
      · rw [if_neg hin]
    simp only [chainLegs, hstep, Option.none_bind]

/-- Witness for C7: the three directions at concrete legs and price data. -/
theorem raw_rate_direction_selection_witness :
    rawPriceMultiplier wTriad.leg1 ⟨2, MIN_LIQUIDITY⟩ =
      some (DecValue.fin 2) ∧
    rawPriceMultiplier wTriad.leg2 ⟨2, MIN_LIQUIDITY⟩ =
      some (DecValue.fin (1 / 2)) ∧
    rawPriceMultiplier badLeg ⟨2, MIN_LIQUIDITY⟩ = none :=
  ⟨(raw_rate_direction_selection wTriad.leg1 ⟨2, MIN_LIQUIDITY⟩).1 rfl,
   (raw_rate_direction_selection wTriad.leg2 ⟨2, MIN_LIQUIDITY⟩).2.1 rfl
     (by decide) (by norm_num),
   ((raw_rate_direction_selection badLeg ⟨2, MIN_LIQUIDITY⟩).2.2
     (by decide) (by decide)).1⟩

/-- C8: fee application composes multiplicatively per leg: for a route of
three legs each with fee `f` parts-per-million whose raw rates resolve to
finite values, the final amount is the product of the three per-leg
human-scale exchange rates times the test amount times
`(1 - f/1000000) ^ 3`. -/
theorem fee_composition_cubed (pm : List (ℕ × PriceData)) (t : TriadRoute)
    (f : ℕ) (pd1 pd2 pd3 : PriceData) (r1 r2 r3 : ℚ)
    (hp1 : priceMapFind pm t.leg1.pool = some pd1)
    (hp2 : priceMapFind pm t.leg2.pool = some pd2)
    (hp3 : priceMapFind pm t.leg3.pool = some pd3)
    (hm1 : rawPriceMultiplier t.leg1 pd1 = some (DecValue.fin r1))
    (hm2 : rawPriceMultiplier t.leg2 pd2 = some (DecValue.fin r2))
    (hm3 : rawPriceMultiplier t.leg3 pd3 = some (DecValue.fin r3))
    (hf1 : t.leg1.fee = f) (hf2 : t.leg2.fee = f) (hf3 : t.leg3.fee = f)
    (ht1 : t.leg1.tokenIn = START_TOKEN_SYMBOL)
    (ht2 : t.leg2.tokenIn = t.leg1.tokenOut)
    (ht3 : t.leg3.tokenIn = t.leg2.tokenOut) :
    chainLegs pm (routeList t) (TEST_AMOUNT, START_TOKEN_SYMBOL) =
      some (DecValue.fin
        (humanRate t.leg1 r1 * humanRate t.leg2 r2 * humanRate t.leg3 r3 *
          1 * (1 - (f : ℚ) / 1000000) ^ 3),
        t.leg3.tokenOut) := by
  simp only [routeList, chainLegs, TEST_AMOUNT]
  rw [legStep_fin pm t.leg1 pd1 r1 1 START_TOKEN_SYMBOL hp1 hm1 ht1]
  simp only [Option.some_bind, chainLegs]
  rw [legStep_fin pm t.leg2 pd2 r2
    (1 * humanRate t.leg1 r1 * (1 - (t.leg1.fee : ℚ) / 1000000))
    t.leg1.tokenOut hp2 hm2 ht2]
  simp only [Option.some_bind, chainLegs]
  rw [legStep_fin pm t.leg3 pd3 r3
    (1 * humanRate t.leg1 r1 * (1 - (t.leg1.fee : ℚ) / 1000000) *
      humanRate t.leg2 r2 * (1 - (t.leg2.fee : ℚ) / 1000000))
    t.leg2.tokenOut hp3 hm3 ht3]
  simp only [Option.some_bind, chainLegs, Option.some.injEq, Prod.mk.injEq,
    DecValue.fin.injEq]
  refine ⟨?_, trivial⟩
  rw [hf1, hf2, hf3]
  ring

/-- Witness for C8 at the concrete route `wTriad` over `wpm`, all three
legs with fee 500 ppm. -/
theorem fee_composition_cubed_witness :
    chainLegs wpm (routeList wTriad) (TEST_AMOUNT, START_TOKEN_SYMBOL) =
      some (DecValue.fin
        (humanRate wTriad.leg1 2 * humanRate wTriad.leg2 1 *
          humanRate wTriad.leg3 1 * 1 * (1 - (500 : ℚ) / 1000000) ^ 3),
        wTriad.leg3.tokenOut) :=
  fee_composition_cubed wpm wTriad 500 ⟨2, MIN_LIQUIDITY⟩ ⟨1, MIN_LIQUIDITY⟩
    ⟨1, MIN_LIQUIDITY⟩ 2 1 1 rfl rfl rfl rfl
    (by norm_num [rawPriceMultiplier, DecValue.div, wTriad, wLeg2])
    (by norm_num [rawPriceMultiplier, DecValue.div, wTriad, wLeg3])
    rfl rfl rfl rfl rfl rfl

/-- C9: the raw exchange ratio computed from a fetched square-root price is
`(sqrtPriceX96 / 2^96)^2 = sqrtPriceX96^2 / 2^192` (token1 per token0,
modelled as an exact rational: the monitor's decimal type is configured
with 60 significant digits, primitive arithmetic, never native floating
point). -/
theorem raw_ratio_formula_and_precision (s : ℕ) :
    getRawPriceFromSqrt s = (s : ℚ) ^ 2 / 2 ^ 192 ∧
    60 ≤ decimalPrecision := by
  constructor
  · unfold getRawPriceFromSqrt
    rw [div_pow]
    norm_num [← pow_mul]
  · norm_num [decimalPrecision]

/-- C10: a pool fetched with `sqrtPriceX96 = 0` and ample liquidity
survives the fetch and liquidity checks and enters Price Data with raw
ratio 0; a leg entering that pool through its token1 then computes the
rate as 1 divided by 0, which is positive infinity, and the running
amount after the leg is non-finite instead of the pool being excluded or
the route being rejected. -/
theorem unguarded_inverse_division_zero :
    priceMapFind (buildPriceMap [zeroFetch]) zeroLeg.pool =
      some ⟨getRawPriceFromSqrt 0, MIN_LIQUIDITY⟩ ∧
    getRawPriceFromSqrt 0 = 0 ∧
    rawPriceMultiplier zeroLeg ⟨0, MIN_LIQUIDITY⟩ =
      some ((DecValue.fin 1).div (DecValue.fin 0)) ∧
    (DecValue.fin 1).div (DecValue.fin 0) = DecValue.inf ∧
    legStep (buildPriceMap [zeroFetch]) zeroLeg (DecValue.fin 1, USDC) =
      some (DecValue.inf, WETH) := by
  have hz : getRawPriceFromSqrt 0 = 0 := by
    norm_num [getRawPriceFromSqrt]
  have hfind : priceMapFind (buildPriceMap [zeroFetch]) zeroLeg.pool =
      some ⟨getRawPriceFromSqrt 0, MIN_LIQUIDITY⟩ := by
    have h := priceMapFind_buildPriceMap [zeroFetch] zeroFetch
      (by decide) (by simp)
    rw [show zeroLeg.pool = zeroFetch.pool from rfl, h,
      if_pos ⟨rfl, rfl, le_refl _⟩]
    rfl
  have hdiv : (DecValue.fin 1).div (DecValue.fin 0) = DecValue.inf := by
    norm_num [DecValue.div]
  have hmul : rawPriceMultiplier zeroLeg ⟨0, MIN_LIQUIDITY⟩ =
      some ((DecValue.fin 1).div (DecValue.fin 0)) := by
    simp [rawPriceMultiplier, zeroLeg]
  have hstep : legStep (buildPriceMap [zeroFetch]) zeroLeg
      (DecValue.fin 1, USDC) = some (DecValue.inf, WETH) := by
    unfold legStep
    rw [show priceMapFind (buildPriceMap [zeroFetch]) zeroLeg.pool =
        some ⟨0, MIN_LIQUIDITY⟩ from by rw [hfind, hz]]
    dsimp only
    rw [if_pos (show zeroLeg.tokenIn = USDC from rfl)]
    rw [show rawPriceMultiplier zeroLeg ⟨0, MIN_LIQUIDITY⟩ =
        some DecValue.inf from by rw [hmul, hdiv]]
    dsimp only
    norm_num [DecValue.mul, zeroLeg, decimals]
  exact ⟨hfind, hz, hmul, hdiv, hstep⟩
